import Mathlib

/-!
Verification of the country-data HTTP service
(`src/controllers/country.controller.ts`, routes in `src/routes/country.routes.ts`,
table schema in the prisma migration).

Numbers that the service handles as JavaScript numbers are modelled as rationals
(`ℚ`); timestamps are modelled as natural numbers; the relational table is a list
of rows.  JavaScript truthiness tests that the controller performs on optional
strings and numbers are modelled explicitly (`""` and `0` are falsy).
-/

namespace CountrySvc

/-! ## Raw upstream data (shape of the restcountries / er-api payloads) -/

structure RawCurrency where
  code : String
deriving Repr, DecidableEq

structure RawCountry where
  name : String
  capital : Option String
  region : Option String
  population : ℚ
  flag : Option String
  currencies : List RawCurrency
deriving Repr, DecidableEq

/-- JS truthiness of an optional string: `undefined`/`null` and `""` are falsy. -/
def strTruthy : Option String → Bool
  | none => false
  | some s => !(s == "")

/-- Lower-casing of a string, character by character: the model of SQL `LOWER()`
and of the case-insensitive collation of the `Country` table. -/
def lowerStr (s : String) : String :=
  String.mk (s.data.map Char.toLower)

/-- Lexicographic comparison of character lists (the model of string ordering
under the table's collation, applied to lower-cased strings). -/
def charListLe : List Char → List Char → Bool
  | [], _ => true
  | _ :: _, [] => false
  | a :: as, b :: bs =>
    if a < b then true
    else if b < a then false
    else charListLe as bs

def strLe (a b : String) : Bool := charListLe a.data b.data

/-- Model of `country.capital || null` (and likewise `region`, `flag`): an empty
string is replaced by `null`. -/
def orNullStr : Option String → Option String
  | none => none
  | some s => if s = "" then none else some s

/-- Line 48: `country.currencies && country.currencies.length > 0 ?
country.currencies[0].code : null`.  An absent array is modelled as `[]`. -/
def firstCurrencyCode (c : RawCountry) : Option String :=
  match c.currencies with
  | [] => none
  | cur :: _ => some cur.code

/-- Line 49: `currencyCode && exchangeRates[currencyCode] ?
exchangeRates[currencyCode] : null`.  Both truthiness tests are explicit: an
empty-string code short-circuits, and a rate of `0` is falsy. -/
def lookupRate (rates : String → Option ℚ) (code : Option String) : Option ℚ :=
  match code with
  | none => none
  | some c =>
    if c = "" then none
    else
      match rates c with
      | none => none
      | some r => if r = 0 then none else some r

/-- Line 51: `exchangeRate ? (country.population * randomMultiplier) / exchangeRate
: (currencyCode ? null : 0)`. -/
def estimateGdp (population m : ℚ) (currencyCode : Option String)
    (exchangeRate : Option ℚ) : Option ℚ :=
  match exchangeRate with
  | some r =>
    if r = 0 then (if strTruthy currencyCode then none else some 0)
    else some (population * m / r)
  | none => if strTruthy currencyCode then none else some 0

/-! ## Processed rows and validation -/

structure ProcessedCountry where
  name : String
  capital : Option String
  region : Option String
  population : ℚ
  currency_code : Option String
  exchange_rate : Option ℚ
  estimated_gdp : Option ℚ
  flag_url : Option String
deriving Repr, DecidableEq

/-- Lines 48-62 of the controller: assemble one candidate row from a raw country,
the fetched rates table and this country's random multiplier `m`. -/
def processCountry (rates : String → Option ℚ) (m : ℚ) (c : RawCountry) :
    ProcessedCountry :=
  let currencyCode := firstCurrencyCode c
  let exchangeRate := lookupRate rates currencyCode
  { name := c.name
    capital := orNullStr c.capital
    region := orNullStr c.region
    population := c.population
    currency_code := currencyCode
    exchange_rate := exchangeRate
    estimated_gdp := estimateGdp c.population m currencyCode exchangeRate
    flag_url := orNullStr c.flag }

/-- Validation rule `z.number().positive().nullable()` for `exchange_rate`. -/
def rateOk : Option ℚ → Bool
  | none => true
  | some r => decide (0 < r)

/-- Validation rule `z.number().int().nonnegative()` for `population` (a rational
is an integer iff its reduced denominator is 1). -/
def populationOk (p : ℚ) : Bool :=
  decide (p.den = 1) && decide (0 ≤ p)

/-- The fields of `processedCountrySchema` that can fail on a typed candidate:
`name` must be non-empty, `population` a non-negative integer, `exchange_rate`
positive or null.  The remaining fields are nullable strings / numbers and are
well-typed by construction.  Returns the failing field names in schema order
(the keys of the `details` object of the 400 response). -/
def validateErrors (c : ProcessedCountry) : List String :=
  (if c.name = "" then ["name"] else []) ++
  (if populationOk c.population then [] else ["population"]) ++
  (if rateOk c.exchange_rate then [] else ["exchange_rate"])

/-! ## The store (MySQL `Country` table) -/

structure StoredCountry where
  data : ProcessedCountry
  last_refreshed_at : ℕ
deriving Repr, DecidableEq

/-- The table collation is `utf8mb4_unicode_ci`, so the unique index
`Country_name_key` compares names case-insensitively. -/
def lowerName (r : StoredCountry) : String := lowerStr r.data.name

/-- The uniqueness invariant enforced by `Country_name_key` under the table's
case-insensitive collation. -/
def namesCiDistinct (rows : List StoredCountry) : Prop :=
  (rows.map lowerName).Nodup

instance (rows : List StoredCountry) : Decidable (namesCiDistinct rows) :=
  List.nodupDecidable _

/-- Model of `prisma.$transaction([deleteMany, createMany(rows)])`: the table contents are
replaced by `rows` in one transaction; if `createMany` violates the unique name
index the whole transaction rolls back (`none`). -/
def replaceAll (rows : List StoredCountry) : Option (List StoredCountry) :=
  if namesCiDistinct rows then some rows else none

/-! ## The refresh pipeline (`refreshCountries`) -/

inductive RefreshResponse where
  | serviceUnavailable (source : String)
  | validationFailed (country : String) (details : List String)
  | refreshed
  | internalError
deriving Repr, DecidableEq

def RefreshResponse.statusCode : RefreshResponse → ℕ
  | .serviceUnavailable _ => 503
  | .validationFailed _ _ => 400
  | .refreshed => 200
  | .internalError => 500

/-- The `for` loop of lines 46-86: process each raw country in order (country
`k` of the list consumes multiplier `ms (i + k)`), aborting at the first
candidate whose validation fails with that country's name and failing fields. -/
def processAll (rates : String → Option ℚ) (ms : ℕ → ℚ) :
    ℕ → List RawCountry → Except (String × List String) (List ProcessedCountry)
  | _, [] => Except.ok []
  | i, c :: rest =>
    let p := processCountry rates (ms i) c
    if validateErrors p = [] then
      match processAll rates ms (i + 1) rest with
      | Except.ok ps => Except.ok (p :: ps)
      | Except.error e => Except.error e
    else Except.error (c.name, validateErrors p)

/-- Controller `refreshCountries` (lines 20-112), up to the data commit.  `countriesData`
and `rates` are the upstream fetch results (`none` = unavailable); `ms k` is the
random multiplier consumed by the `k`-th country; `now` is the cycle timestamp;
`store` is the table before the request.  Returns the HTTP outcome and the table
after the request.  (Image rendering happens after the commit and does not touch
the table; it is modelled separately.) -/
def refreshCountries (countriesData : Option (List RawCountry))
    (rates : Option (String → Option ℚ)) (ms : ℕ → ℚ) (now : ℕ)
    (store : List StoredCountry) : RefreshResponse × List StoredCountry :=
  match countriesData with
  | none => (.serviceUnavailable "countries", store)
  | some cs =>
    match rates with
    | none => (.serviceUnavailable "rates", store)
    | some r =>
      match processAll r ms 0 cs with
      | Except.error e => (.validationFailed e.1 e.2, store)
      | Except.ok ps =>
        let rows := ps.map (fun p => StoredCountry.mk p now)
        match replaceAll rows with
        | some newStore => (.refreshed, newStore)
        | none => (.internalError, store)

/-! ## Read / delete endpoints -/

/-- Model of `SELECT * FROM Country WHERE LOWER(name) = LOWER(?) LIMIT 1`. -/
def findCi (store : List StoredCountry) (name : String) : Option StoredCountry :=
  store.find? (fun r => lowerName r == lowerStr name)

inductive LookupResponse where
  | found (row : StoredCountry)
  | notFound
deriving Repr, DecidableEq

def LookupResponse.statusCode : LookupResponse → ℕ
  | .found _ => 200
  | .notFound => 404

/-- Controller `getCountry` (lines 143-160). -/
def getCountry (store : List StoredCountry) (name : String) : LookupResponse :=
  match findCi store name with
  | some row => .found row
  | none => .notFound

inductive DeleteResponse where
  | noContent
  | notFound
deriving Repr, DecidableEq

def DeleteResponse.statusCode : DeleteResponse → ℕ
  | .noContent => 204
  | .notFound => 404

/-- Controller `deleteCountry` (lines 163-182): look the row up case-insensitively, then
`prisma.country.delete` on its exact unique name; `204` with empty body on
success, `404` when no row matches. -/
def deleteCountry (store : List StoredCountry) (name : String) :
    DeleteResponse × List StoredCountry :=
  match findCi store name with
  | none => (.notFound, store)
  | some row => (.noContent, store.filter (fun x => !(x.data.name == row.data.name)))

/-! ## Listing (`getCountries`) -/

structure ListQuery where
  region : Option String
  currency : Option String
  sort : Option String
deriving Repr, DecidableEq

/-- Model of `if (region) where.region = \x7b equals: region \x7d`: a missing or empty (falsy)
query value imposes no constraint; otherwise Prisma `equals` compares under the
table's case-insensitive collation. -/
def filterMatch (filter : Option String) (value : Option String) : Bool :=
  match filter with
  | none => true
  | some f =>
    if f = "" then true
    else
      match value with
      | none => false
      | some v => lowerStr v == lowerStr f

def rowMatches (q : ListQuery) (r : StoredCountry) : Bool :=
  filterMatch q.region r.data.region && filterMatch q.currency r.data.currency_code

/-- MySQL comparison on a nullable `DOUBLE` column: `NULL` sorts below every
value, so `ORDER BY estimated_gdp ASC` puts nulls first and `DESC` puts them
last. -/
def optLe (a b : Option ℚ) : Bool :=
  match a, b with
  | none, _ => true
  | some _, none => false
  | some x, some y => decide (x ≤ y)

/-- Ordering `ORDER BY estimated_gdp ASC` (nulls first, per MySQL). -/
def gdpAscRel (a b : StoredCountry) : Prop :=
  optLe a.data.estimated_gdp b.data.estimated_gdp = true

/-- Ordering `ORDER BY estimated_gdp DESC` (nulls last, per MySQL). -/
def gdpDescRel (a b : StoredCountry) : Prop :=
  optLe b.data.estimated_gdp a.data.estimated_gdp = true

/-- Ordering `ORDER BY name ASC` under the case-insensitive collation. -/
def nameAscRel (a b : StoredCountry) : Prop :=
  strLe (lowerName a) (lowerName b) = true

instance : DecidableRel gdpAscRel :=
  fun _ _ => instDecidableEqBool _ _

instance : DecidableRel gdpDescRel :=
  fun _ _ => instDecidableEqBool _ _

instance : DecidableRel nameAscRel :=
  fun _ _ => instDecidableEqBool _ _

/-- Controller `getCountries` (lines 115-140): filter by optional `region` / `currency`,
then order by `estimated_gdp` for `sort=gdp_desc` / `sort=gdp_asc` and by `name`
ascending otherwise. -/
def getCountries (q : ListQuery) (store : List StoredCountry) :
    List StoredCountry :=
  let matched := store.filter (rowMatches q)
  if q.sort = some "gdp_desc" then matched.insertionSort gdpDescRel
  else if q.sort = some "gdp_asc" then matched.insertionSort gdpAscRel
  else matched.insertionSort nameAscRel

/-! ## Status endpoint -/

structure StatusBody where
  total_countries : ℕ
  last_refreshed_at : Option ℕ
deriving Repr, DecidableEq

/-- Query `findFirst` ordered by `last_refreshed_at` descending yields a row of
maximal timestamp (or nothing when the table is empty). -/
def mostRecentTimestamp (store : List StoredCountry) : Option ℕ :=
  (store.map (fun r => r.last_refreshed_at)).max?

/-- Controller `getStatus` (lines 185-202). -/
def getStatus (store : List StoredCountry) : StatusBody :=
  { total_countries := store.length
    last_refreshed_at := mostRecentTimestamp store }

/-! ## Image endpoint and filesystem -/

/-- The filesystem, as a map from path to file contents (bytes). -/
def FileSys : Type := String → Option (List ℕ)

def tmpImagePath : String := "/tmp/country-api-summary.png"

def cacheImagePath : String := "cache/summary.png"

inductive ImageResponse where
  | fileContents (bytes : List ℕ)
  | notFound
deriving Repr, DecidableEq

/-- Controller `getImage` (lines 205-223): serve `/tmp/country-api-summary.png` first,
`cache/summary.png` as fallback, otherwise 404. -/
def getImage (fsFiles : FileSys) : ImageResponse :=
  match fsFiles tmpImagePath with
  | some bytes => .fileContents bytes
  | none =>
    match fsFiles cacheImagePath with
    | some bytes => .fileContents bytes
    | none => .notFound

/-- Modelled from the spec: `generateSummaryImage` is defined in
`src/utils/country.utils.ts`, which is not among the provided sources.  Per the
spec it renders the total count, the top-5 GDP list and the cycle timestamp into
a raster image "written to a well-known filesystem location"; `getImage` reads
`/tmp/country-api-summary.png` first and `cache/summary.png` as fallback, so the
renderer is modelled as writing its (non-empty) PNG bytes to one of those two
paths. -/
def generateSummaryImage (fsFiles : FileSys) (bytes : List ℕ) (useTmp : Bool) :
    FileSys :=
  fun p =>
    if p = (if useTmp then tmpImagePath else cacheImagePath) then some bytes
    else fsFiles p

/-! ## The router (`country.routes.ts`) -/

inductive Method where
  | get
  | post
  | del
deriving Repr, DecidableEq

inductive Handler where
  | refreshH
  | listH
  | getByNameH (name : String)
  | deleteByNameH (name : String)
  | statusH
  | imageH
  | appNotFoundH
deriving Repr, DecidableEq

/-- A segment of an Express route pattern: a literal, or a `:param` capture. -/
inductive Seg where
  | lit (s : String)
  | capture (pname : String)
deriving Repr, DecidableEq

/-- Express path matching: a capture segment matches any segment and binds it, a
literal segment matches itself. -/
def matchPath : List Seg → List String → Option (List (String × String))
  | [], [] => some []
  | Seg.lit t :: ps, s :: ss => if t = s then matchPath ps ss else none
  | Seg.capture pn :: ps, s :: ss =>
    (matchPath ps ss).map (fun binds => (pn, s) :: binds)
  | _, _ => none

/-- The routes in registration order (`country.routes.ts` lines 237-252). -/
def routes : List (Method × List Seg × (List (String × String) → Handler)) :=
  [ (.post, [.lit "countries", .lit "refresh"], fun _ => .refreshH),
    (.get, [.lit "countries"], fun _ => .listH),
    (.get, [.lit "countries", .capture "name"],
      fun b => .getByNameH ((b.lookup "name").getD "")),
    (.del, [.lit "countries", .capture "name"],
      fun b => .deleteByNameH ((b.lookup "name").getD "")),
    (.get, [.lit "status"], fun _ => .statusH),
    (.get, [.lit "countries", .lit "image"], fun _ => .imageH) ]

def dispatchAux (m : Method) (path : List String) :
    List (Method × List Seg × (List (String × String) → Handler)) → Handler
  | [] => .appNotFoundH
  | (rm, pat, h) :: rest =>
    if rm = m then
      match matchPath pat path with
      | some binds => h binds
      | none => dispatchAux m path rest
    else dispatchAux m path rest

/-- Express dispatches to the first registered route whose method and path
match; the app-level 404 handler catches the rest (`index.ts`). -/
def dispatch (m : Method) (path : List String) : Handler :=
  dispatchAux m path routes

inductive GetResponse where
  | jsonRow (row : StoredCountry)
  | jsonList (rows : List StoredCountry)
  | jsonStatus (body : StatusBody)
  | fileContents (bytes : List ℕ)
  | errorJson (status : ℕ) (message : String)
deriving Repr, DecidableEq

/-- End-to-end handling of a GET request: dispatch through the router, then run
the matched controller against the store and filesystem. -/
def handleGet (q : ListQuery) (store : List StoredCountry) (fsFiles : FileSys)
    (path : List String) : GetResponse :=
  match dispatch .get path with
  | .listH => .jsonList (getCountries q store)
  | .getByNameH n =>
    match getCountry store n with
    | .found row => .jsonRow row
    | .notFound => .errorJson 404 "Country not found"
  | .statusH => .jsonStatus (getStatus store)
  | .imageH =>
    match getImage fsFiles with
    | .fileContents bytes => .fileContents bytes
    | .notFound => .errorJson 404 "Summary image not found"
  | _ => .errorJson 404 "Route not found"

/-! ## Helper lemmas -/

lemma lookupRate_pos (rates : String → Option ℚ) (code : String) (R : ℚ)
    (hne : code ≠ "") (hR : rates code = some R) (hRne : R ≠ 0) :
    lookupRate rates (some code) = some R := by
  simp [lookupRate, hne, hR, hRne]

lemma lookupRate_ne_zero (rates : String → Option ℚ) (code : Option String)
    (r : ℚ) (h : lookupRate rates code = some r) : r ≠ 0 := by
  cases code with
  | none => simp [lookupRate] at h
  | some c =>
    by_cases hc : c = ""
    · simp [lookupRate, hc] at h
    · cases hrc : rates c with
      | none => simp [lookupRate, hc, hrc] at h
      | some x =>
        by_cases hx : x = 0
        · simp [lookupRate, hc, hrc, hx] at h
        · have hxr : some x = some r := by
            simpa [lookupRate, hc, hrc, hx] using h
          rw [Option.some_inj] at hxr
          exact hxr ▸ hx

lemma processCountry_exchange_rate (rates : String → Option ℚ) (m : ℚ)
    (c : RawCountry) :
    (processCountry rates m c).exchange_rate =
      lookupRate rates (firstCurrencyCode c) := rfl

lemma processCountry_estimated_gdp (rates : String → Option ℚ) (m : ℚ)
    (c : RawCountry) :
    (processCountry rates m c).estimated_gdp =
      estimateGdp c.population m (firstCurrencyCode c)
        (lookupRate rates (firstCurrencyCode c)) := rfl

/-! ## C1: the GDP derivation -/

/-- C1 counterexample input: an inhabited-by-nobody country (population 0, as
restcountries reports for uninhabited territories) whose currency has a positive
rate. -/
def ceCountry : RawCountry :=
  { name := "Bouvet Island", capital := none, region := some "Antarctic",
    population := 0, flag := none, currencies := [⟨"NOK"⟩] }

def ceRates : String → Option ℚ := fun code => if code = "NOK" then some 1 else none

/-- C1 (counterexample): with population `P = 0`, rate `R = 1` and multiplier
`m = 1500 ∈ [1000, 2000)`, the computed `estimated_gdp` is `0`, but the claimed
half-open interval `[P*1000/R, P*2000/R) = [0, 0)` is empty, so the claimed
range bound is false. -/
theorem gdp_range_fails_at_zero_population :
    (processCountry ceRates 1500 ceCountry).estimated_gdp = some 0 ∧
    ¬ (ceCountry.population * 1000 / 1 ≤ (0 : ℚ) ∧
       (0 : ℚ) < ceCountry.population * 2000 / 1) := by
  constructor
  · simp +decide [processCountry, estimateGdp, lookupRate, firstCurrencyCode,
      ceRates, ceCountry, strTruthy, zero_mul, zero_div]
  · norm_num [ceCountry]

/-- C1 (amended): for every processed country, (a) with a (truthy) currency code
and a positive matching rate `R`, `estimated_gdp = P * m / R`, which lies in
`[P*1000/R, P*2000/R)` whenever `P > 0` and equals `0` when `P = 0`; (b) with a
currency code but no matching rate, `estimated_gdp` is null; (c) with no
currency code at all, `estimated_gdp` is `0`. -/
theorem gdp_estimator_range (c : RawCountry) (rates : String → Option ℚ)
    (m : ℚ) (hm1 : 1000 ≤ m) (hm2 : m < 2000) :
    (∀ code R, firstCurrencyCode c = some code → code ≠ "" →
      rates code = some R → 0 < R →
      (processCountry rates m c).estimated_gdp = some (c.population * m / R) ∧
      (0 < c.population →
        c.population * 1000 / R ≤ c.population * m / R ∧
        c.population * m / R < c.population * 2000 / R) ∧
      (c.population = 0 → (processCountry rates m c).estimated_gdp = some 0)) ∧
    (∀ code, firstCurrencyCode c = some code → code ≠ "" → rates code = none →
      (processCountry rates m c).estimated_gdp = none) ∧
    (firstCurrencyCode c = none →
      (processCountry rates m c).estimated_gdp = some 0) := by
  refine ⟨?_, ?_, ?_⟩
  · intro code R hcode hne hR hRpos
    have hlook : lookupRate rates (firstCurrencyCode c) = some R := by
      rw [hcode]; exact lookupRate_pos rates code R hne hR hRpos.ne'
    have hgdp : (processCountry rates m c).estimated_gdp =
        some (c.population * m / R) := by
      rw [processCountry_estimated_gdp, hlook, estimateGdp,
        if_neg (by exact hRpos.ne')]
    refine ⟨hgdp, ?_, ?_⟩
    · intro hp
      constructor
      · exact (div_le_div_iff_of_pos_right hRpos).mpr
          (mul_le_mul_of_nonneg_left hm1 hp.le)
      · exact (div_lt_div_iff_of_pos_right hRpos).mpr
          (mul_lt_mul_of_pos_left hm2 hp)
    · intro hp0
      rw [hgdp, hp0, zero_mul, zero_div]
  · intro code hcode hne hR
    have hlook : lookupRate rates (firstCurrencyCode c) = none := by
      simp [lookupRate, hcode, hne, hR]
    rw [processCountry_estimated_gdp, hlook, estimateGdp]
    simp [hcode, strTruthy, hne]
  · intro hcode
    have hlook : lookupRate rates (firstCurrencyCode c) = none := by
      simp [lookupRate, hcode]
    rw [processCountry_estimated_gdp, hlook, estimateGdp]
    simp [hcode, strTruthy]

/-- C1 witness input. -/
def wC1Country : RawCountry :=
  { name := "Nigeria", capital := some "Abuja", region := some "Africa",
    population := 5, flag := some "f.png", currencies := [⟨"NGN"⟩] }

def wC1Rates : String → Option ℚ := fun code => if code = "NGN" then some 2 else none

/-- C1 witness: the amended estimator property instantiated at population 5,
rate 2, multiplier 1500. -/
theorem gdp_estimator_range_witness :
    (processCountry wC1Rates 1500 wC1Country).estimated_gdp =
      some (wC1Country.population * 1500 / 2) ∧
    (0 < wC1Country.population →
      wC1Country.population * 1000 / 2 ≤ wC1Country.population * 1500 / 2 ∧
      wC1Country.population * 1500 / 2 < wC1Country.population * 2000 / 2) := by
  have h := (gdp_estimator_range wC1Country wC1Rates 1500 (by norm_num)
    (by norm_num)).1 "NGN" 2 rfl (by decide) (by simp [wC1Rates]) (by norm_num)
  exact ⟨h.1, h.2.1⟩

/-! ## C10: a rate of exactly 0 -/

/-- C10: if the (non-empty) currency code maps to a rate of exactly `0` in the
fetched rates table, the candidate stores `exchange_rate = null` and
`estimated_gdp = null`; moreover every stored `exchange_rate` is non-zero, so
the division `population * multiplier / rate` never has a zero divisor. -/
theorem zero_rate_treated_as_absent :
    (∀ c rates m code, firstCurrencyCode c = some code → code ≠ "" →
      rates code = some 0 →
      (processCountry rates m c).exchange_rate = none ∧
      (processCountry rates m c).estimated_gdp = none) ∧
    (∀ c rates m r, (processCountry rates m c).exchange_rate = some r →
      r ≠ 0) := by
  constructor
  · intro c rates m code hcode hne hzero
    have hlook : lookupRate rates (firstCurrencyCode c) = none := by
      simp [lookupRate, hcode, hne, hzero]
    constructor
    · rw [processCountry_exchange_rate, hlook]
    · rw [processCountry_estimated_gdp, hlook, estimateGdp]
      simp [hcode, strTruthy, hne]
  · intro c rates m r h
    exact lookupRate_ne_zero rates (firstCurrencyCode c) r
      (processCountry_exchange_rate rates m c ▸ h)

/-- C10 witness input. -/
def wC10Country : RawCountry :=
  { name := "Ghana", capital := none, region := some "Africa",
    population := 7, flag := none, currencies := [⟨"GHS"⟩] }

def wC10Rates : String → Option ℚ := fun code => if code = "GHS" then some 0 else none

/-- C10 witness: the zero-rate property instantiated at a country whose currency
code maps to rate 0. -/
theorem zero_rate_treated_as_absent_witness :
    (processCountry wC10Rates 1500 wC10Country).exchange_rate = none ∧
    (processCountry wC10Rates 1500 wC10Country).estimated_gdp = none :=
  zero_rate_treated_as_absent.1 wC10Country wC10Rates 1500 "GHS" rfl
    (by decide) (by simp [wC10Rates])

/-! ## Lemmas about the processing loop -/

lemma processAll_nil (rates : String → Option ℚ) (ms : ℕ → ℚ) (i : ℕ) :
    processAll rates ms i [] = Except.ok [] := rfl

lemma processAll_cons_valid (rates : String → Option ℚ) (ms : ℕ → ℚ) (i : ℕ)
    (c : RawCountry) (rest : List RawCountry)
    (hv : validateErrors (processCountry rates (ms i) c) = []) :
    processAll rates ms i (c :: rest) =
      match processAll rates ms (i + 1) rest with
      | Except.ok ps => Except.ok (processCountry rates (ms i) c :: ps)
      | Except.error e => Except.error e := by
  simp only [processAll]
  rw [if_pos hv]

lemma processAll_cons_invalid (rates : String → Option ℚ) (ms : ℕ → ℚ) (i : ℕ)
    (c : RawCountry) (rest : List RawCountry)
    (hv : validateErrors (processCountry rates (ms i) c) ≠ []) :
    processAll rates ms i (c :: rest) =
      Except.error (c.name, validateErrors (processCountry rates (ms i) c)) := by
  simp only [processAll]
  rw [if_neg hv]

lemma processAll_ok_length (rates : String → Option ℚ) (ms : ℕ → ℚ) :
    ∀ (cs : List RawCountry) (i : ℕ) (ps : List ProcessedCountry),
      processAll rates ms i cs = Except.ok ps → ps.length = cs.length := by
  intro cs
  induction cs with
  | nil =>
    intro i ps h
    rw [processAll_nil] at h
    cases h
    rfl
  | cons c rest ih =>
    intro i ps h
    by_cases hv : validateErrors (processCountry rates (ms i) c) = []
    · rw [processAll_cons_valid rates ms i c rest hv] at h
      cases hrec : processAll rates ms (i + 1) rest with
      | ok qs =>
        rw [hrec] at h
        cases h
        simp [ih (i + 1) qs hrec]
      | error e => rw [hrec] at h; simp at h
    · rw [processAll_cons_invalid rates ms i c rest hv] at h; simp at h

lemma processAll_ok_names (rates : String → Option ℚ) (ms : ℕ → ℚ) :
    ∀ (cs : List RawCountry) (i : ℕ) (ps : List ProcessedCountry),
      processAll rates ms i cs = Except.ok ps →
      ps.map ProcessedCountry.name = cs.map RawCountry.name := by
  intro cs
  induction cs with
  | nil =>
    intro i ps h
    rw [processAll_nil] at h
    cases h
    rfl
  | cons c rest ih =>
    intro i ps h
    by_cases hv : validateErrors (processCountry rates (ms i) c) = []
    · rw [processAll_cons_valid rates ms i c rest hv] at h
      cases hrec : processAll rates ms (i + 1) rest with
      | ok qs =>
        rw [hrec] at h
        cases h
        simp only [List.map_cons, ih (i + 1) qs hrec]
        rfl
      | error e => rw [hrec] at h; simp at h
    · rw [processAll_cons_invalid rates ms i c rest hv] at h; simp at h

lemma processAll_first_invalid (rates : String → Option ℚ) (ms : ℕ → ℚ) :
    ∀ (pre : List RawCountry) (i : ℕ) (bad : RawCountry)
      (rest : List RawCountry),
      (∀ k (hk : k < pre.length),
        validateErrors (processCountry rates (ms (i + k)) (pre.get ⟨k, hk⟩)) = []) →
      validateErrors (processCountry rates (ms (i + pre.length)) bad) ≠ [] →
      processAll rates ms i (pre ++ bad :: rest) =
        Except.error (bad.name,
          validateErrors (processCountry rates (ms (i + pre.length)) bad)) := by
  intro pre
  induction pre with
  | nil =>
    intro i bad rest _ hbad
    simp only [List.length_nil, Nat.add_zero] at hbad
    simp only [List.nil_append, Nat.add_zero, List.length_nil]
    exact processAll_cons_invalid rates ms i bad rest hbad
  | cons p pre' ih =>
    intro i bad rest hpre hbad
    have hp : validateErrors (processCountry rates (ms i) p) = [] := by
      have h0 := hpre 0 (by simp)
      simpa using h0
    have e : i + (p :: pre').length = (i + 1) + pre'.length := by
      simp only [List.length_cons]
      omega
    rw [e] at hbad
    have hpre' : ∀ k (hk : k < pre'.length),
        validateErrors (processCountry rates (ms ((i + 1) + k))
          (pre'.get ⟨k, hk⟩)) = [] := by
      intro k hk
      have h1 := hpre (k + 1) (by simpa using Nat.succ_lt_succ hk)
      have e2 : i + (k + 1) = (i + 1) + k := by omega
      rw [e2] at h1
      simpa using h1
    rw [List.cons_append, processAll_cons_valid rates ms i p _ hp, e,
      ih (i + 1) bad rest hpre' hbad]

/-! ## C4: validation failure aborts the cycle -/

/-- C4: when the first validation failure occurs at the candidate `bad` (all
candidates before it validate cleanly), the whole refresh returns a 400 response
naming that country and carrying its per-field details, and the store is exactly
what it was before the refresh. -/
theorem validation_aborts_cycle (rates : String → Option ℚ) (ms : ℕ → ℚ)
    (now : ℕ) (store : List StoredCountry) (pre : List RawCountry)
    (bad : RawCountry) (rest : List RawCountry)
    (hpre : ∀ k (hk : k < pre.length),
      validateErrors (processCountry rates (ms k) (pre.get ⟨k, hk⟩)) = [])
    (hbad : validateErrors (processCountry rates (ms pre.length) bad) ≠ []) :
    refreshCountries (some (pre ++ bad :: rest)) (some rates) ms now store =
      (RefreshResponse.validationFailed bad.name
        (validateErrors (processCountry rates (ms pre.length) bad)), store) ∧
    (RefreshResponse.validationFailed bad.name
      (validateErrors (processCountry rates (ms pre.length) bad))).statusCode
      = 400 := by
  have hpre0 : ∀ k (hk : k < pre.length),
      validateErrors (processCountry rates (ms (0 + k)) (pre.get ⟨k, hk⟩)) = [] := by
    intro k hk
    simpa [Nat.zero_add] using hpre k hk
  have hbad0 : validateErrors (processCountry rates (ms (0 + pre.length))
      bad) ≠ [] := by
    simpa [Nat.zero_add] using hbad
  have h := processAll_first_invalid rates ms pre 0 bad rest hpre0 hbad0
  rw [Nat.zero_add] at h
  constructor
  · simp only [refreshCountries, h]
  · rfl

/-- C4 witness input: a candidate with an empty name. -/
def wC4Bad : RawCountry :=
  { name := "", capital := none, region := none, population := 3,
    flag := none, currencies := [] }

/-- C4 witness: a refresh whose single candidate has an empty name returns the
400 validation response naming it and leaves the (non-empty) store unchanged. -/
theorem validation_aborts_cycle_witness :
    refreshCountries (some ([] ++ wC4Bad :: [])) (some (fun _ => none))
      (fun _ => 1500) 42 [] =
      (RefreshResponse.validationFailed wC4Bad.name
        (validateErrors (processCountry (fun _ => none)
          ((fun _ : ℕ => (1500 : ℚ)) ([] : List RawCountry).length) wC4Bad)), []) ∧
    (RefreshResponse.validationFailed wC4Bad.name
      (validateErrors (processCountry (fun _ => none)
        ((fun _ : ℕ => (1500 : ℚ)) ([] : List RawCountry).length) wC4Bad))).statusCode
      = 400 :=
  validation_aborts_cycle (fun _ => none) (fun _ => 1500) 42 [] [] wC4Bad []
    (fun k hk => absurd hk (Nat.not_lt_zero k)) (by decide)

/-! ## C5: successful refresh replaces the store -/

/-- C5: if a refresh returns the success response, the new store has exactly one
row per (validated) candidate, every row is stamped with the cycle timestamp
`now`, and the new store is precisely the processed candidates (so no row from
an earlier cycle survives). -/
theorem refresh_success_replaces_store (cs : List RawCountry)
    (rates : String → Option ℚ) (ms : ℕ → ℚ) (now : ℕ)
    (store store' : List StoredCountry)
    (h : refreshCountries (some cs) (some rates) ms now store =
      (RefreshResponse.refreshed, store')) :
    store'.length = cs.length ∧
    (∀ row, row ∈ store' → row.last_refreshed_at = now) ∧
    ∃ ps, processAll rates ms 0 cs = Except.ok ps ∧
      store' = ps.map (fun p => StoredCountry.mk p now) := by
  cases hp : processAll rates ms 0 cs with
  | error e =>
    simp only [refreshCountries, hp] at h
    simp at h
  | ok ps =>
    by_cases hnd : namesCiDistinct (ps.map (fun p => StoredCountry.mk p now))
    · have hrep : replaceAll (ps.map (fun p => StoredCountry.mk p now)) =
          some (ps.map (fun p => StoredCountry.mk p now)) := by
        unfold replaceAll
        rw [if_pos hnd]
      simp only [refreshCountries, hp, hrep] at h
      have h2 : store' = ps.map (fun p => StoredCountry.mk p now) := by
        have hsnd := congrArg Prod.snd h
        simpa using hsnd.symm
      subst h2
      refine ⟨?_, ?_, ps, rfl, rfl⟩
      · simp [processAll_ok_length rates ms cs 0 ps hp]
      · intro row hrow
        rcases List.mem_map.mp hrow with ⟨p, _, rfl⟩
        rfl
    · have hrep : replaceAll (ps.map (fun p => StoredCountry.mk p now)) = none := by
        unfold replaceAll
        rw [if_neg hnd]
      simp only [refreshCountries, hp, hrep] at h
      simp at h

/-- C5 witness input: one valid candidate with no currency. -/
def wC5Country : RawCountry :=
  { name := "Atlantis", capital := none, region := none, population := 5,
    flag := none, currencies := [] }

/-- C5 witness: the success-shape property instantiated at a concrete
single-candidate refresh. -/
theorem refresh_success_replaces_store_witness :
    ([⟨⟨"Atlantis", none, none, 5, none, none, some 0, none⟩, 42⟩] :
        List StoredCountry).length = [wC5Country].length ∧
    (∀ row, row ∈ ([⟨⟨"Atlantis", none, none, 5, none, none, some 0, none⟩, 42⟩] :
        List StoredCountry) → row.last_refreshed_at = 42) ∧
    ∃ ps, processAll (fun _ => none) (fun _ => 1500) 0 [wC5Country] =
        Except.ok ps ∧
      ([⟨⟨"Atlantis", none, none, 5, none, none, some 0, none⟩, 42⟩] :
        List StoredCountry) = ps.map (fun p => StoredCountry.mk p 42) :=
  refresh_success_replaces_store [wC5Country] (fun _ => none) (fun _ => 1500)
    42 [] _ (by decide)

/-! ## C6: duplicate names abort; name uniqueness is invariant -/

/-- C6: (a) a refresh whose candidate list contains two (case-sensitively) equal
names — i.e. whose name list is not duplicate-free — leaves the store unchanged
and does not succeed (the unique-index violation rolls the transaction back);
(b) a refresh always preserves the store's name-uniqueness invariant; (c) so
does a delete. -/
theorem duplicate_names_abort_and_uniqueness :
    (∀ (cs : List RawCountry) (rates : String → Option ℚ) (ms : ℕ → ℚ)
      (now : ℕ) (store : List StoredCountry),
      ¬ (cs.map RawCountry.name).Nodup →
      (refreshCountries (some cs) (some rates) ms now store).2 = store ∧
      (refreshCountries (some cs) (some rates) ms now store).1 ≠
        RefreshResponse.refreshed) ∧
    (∀ cd rates ms (now : ℕ) (store : List StoredCountry),
      namesCiDistinct store →
      namesCiDistinct (refreshCountries cd rates ms now store).2) ∧
    (∀ (store : List StoredCountry) (name : String), namesCiDistinct store →
      namesCiDistinct (deleteCountry store name).2) := by
  refine ⟨?_, ?_, ?_⟩
  · intro cs rates ms now store hdup
    cases hp : processAll rates ms 0 cs with
    | error e =>
      have hre : refreshCountries (some cs) (some rates) ms now store =
          (RefreshResponse.validationFailed e.1 e.2, store) := by
        simp only [refreshCountries, hp]
      rw [hre]
      exact ⟨rfl, by simp⟩
    | ok ps =>
      have hnames := processAll_ok_names rates ms cs 0 ps hp
      have hmap : (ps.map (fun p => StoredCountry.mk p now)).map lowerName =
          (cs.map RawCountry.name).map lowerStr := by
        rw [List.map_map, ← hnames, List.map_map]
        rfl
      have hnd : ¬ namesCiDistinct (ps.map (fun p => StoredCountry.mk p now)) := by
        intro hcontra
        unfold namesCiDistinct at hcontra
        rw [hmap] at hcontra
        exact hdup (hcontra.of_map _)
      have hrep : replaceAll (ps.map (fun p => StoredCountry.mk p now)) = none := by
        unfold replaceAll
        rw [if_neg hnd]
      have hre : refreshCountries (some cs) (some rates) ms now store =
          (RefreshResponse.internalError, store) := by
        simp only [refreshCountries, hp, hrep]
      rw [hre]
      exact ⟨rfl, by simp⟩
  · intro cd rates ms now store hstore
    cases cd with
    | none => simpa [refreshCountries] using hstore
    | some cs =>
      cases rates with
      | none => simpa [refreshCountries] using hstore
      | some r =>
        cases hp : processAll r ms 0 cs with
        | error e => simpa [refreshCountries, hp] using hstore
        | ok ps =>
          by_cases hnd : namesCiDistinct (ps.map (fun p => StoredCountry.mk p now))
          · simp [refreshCountries, hp, replaceAll, hnd]
          · simpa [refreshCountries, hp, replaceAll, hnd] using hstore
  · intro store name hstore
    cases hf : findCi store name with
    | none => simp [deleteCountry, hf]; exact hstore
    | some row =>
      have hsub : List.Sublist
          ((store.filter (fun x => !(x.data.name == row.data.name))).map lowerName)
          (store.map lowerName) :=
        List.Sublist.map lowerName (List.filter_sublist store)
      have hnd : ((store.filter
          (fun x => !(x.data.name == row.data.name))).map lowerName).Nodup :=
        List.Nodup.sublist hsub hstore
      simpa [deleteCountry, hf, namesCiDistinct] using hnd

/-- C6 witness: refreshing with two candidates named `Atlantis` leaves an empty
store empty and does not succeed. -/
theorem duplicate_names_abort_witness :
    (refreshCountries (some [wC5Country, wC5Country]) (some (fun _ => none))
      (fun _ => 1500) 42 []).2 = [] ∧
    (refreshCountries (some [wC5Country, wC5Country]) (some (fun _ => none))
      (fun _ => 1500) 42 []).1 ≠ RefreshResponse.refreshed :=
  duplicate_names_abort_and_uniqueness.1 [wC5Country, wC5Country]
    (fun _ => none) (fun _ => 1500) 42 [] (by decide)

/-! ## C7: case-insensitive lookup and delete -/

lemma findCi_mem :
    ∀ (store : List StoredCountry), namesCiDistinct store →
      ∀ (row : StoredCountry) (q : String), row ∈ store →
        lowerStr q = lowerStr row.data.name → findCi store q = some row := by
  intro store
  induction store with
  | nil =>
    intro _ row q hmem
    cases hmem
  | cons a rest ih =>
    intro hnd row q hmem hq
    have hnd2 : (lowerName a ∉ rest.map lowerName) ∧
        (rest.map lowerName).Nodup := by
      unfold namesCiDistinct at hnd
      rw [List.map_cons, List.nodup_cons] at hnd
      exact hnd
    rcases List.mem_cons.mp hmem with rfl | hmem2
    · unfold findCi
      rw [List.find?_cons_of_pos]
      simp only [lowerName]
      rw [hq]
      simp
    · have hne : lowerName a ≠ lowerStr q := by
        intro heq
        apply hnd2.1
        rw [heq, hq]
        have hrw : lowerStr row.data.name = lowerName row := rfl
        rw [hrw]
        exact List.mem_map_of_mem lowerName hmem2
      unfold findCi
      rw [List.find?_cons_of_neg]
      · exact ih hnd2.2 row q hmem2 hq
      · simp [hne]

lemma findCi_none (store : List StoredCountry) (q : String)
    (h : ∀ r, r ∈ store → lowerName r ≠ lowerStr q) :
    findCi store q = none := by
  unfold findCi
  apply List.find?_eq_none.mpr
  intro r hr
  simp [h r hr]

/-- C7: with the name-uniqueness invariant in force, (a) looking up any case
variant `q` of a stored row's name returns exactly that row with status 200,
and deleting via `q` returns 204 (empty body) with exactly that row removed;
(b) when no stored row matches case-insensitively, both lookup and delete
return 404 and delete leaves the store unchanged. -/
theorem lookup_delete_case_insensitive :
    (∀ (store : List StoredCountry) (row : StoredCountry) (q : String),
      namesCiDistinct store → row ∈ store →
      lowerStr q = lowerStr row.data.name →
      getCountry store q = LookupResponse.found row ∧
      (getCountry store q).statusCode = 200 ∧
      deleteCountry store q = (DeleteResponse.noContent,
        store.filter (fun x => !(x.data.name == row.data.name))) ∧
      DeleteResponse.noContent.statusCode = 204 ∧
      row ∉ (deleteCountry store q).2) ∧
    (∀ (store : List StoredCountry) (q : String),
      (∀ r, r ∈ store → lowerName r ≠ lowerStr q) →
      getCountry store q = LookupResponse.notFound ∧
      (getCountry store q).statusCode = 404 ∧
      deleteCountry store q = (DeleteResponse.notFound, store)) := by
  constructor
  · intro store row q hnd hmem hq
    have hf := findCi_mem store hnd row q hmem hq
    have hget : getCountry store q = LookupResponse.found row := by
      unfold getCountry
      rw [hf]
    have hdel : deleteCountry store q = (DeleteResponse.noContent,
        store.filter (fun x => !(x.data.name == row.data.name))) := by
      unfold deleteCountry
      rw [hf]
    refine ⟨hget, by rw [hget]; rfl, hdel, rfl, ?_⟩
    rw [hdel]
    intro hcontra
    rcases List.mem_filter.mp hcontra with ⟨-, habs⟩
    simp at habs
  · intro store q h
    have hf := findCi_none store q h
    have hget : getCountry store q = LookupResponse.notFound := by
      unfold getCountry
      rw [hf]
    refine ⟨hget, by rw [hget]; rfl, ?_⟩
    unfold deleteCountry
    rw [hf]

/-- C7 witness rows. -/
def wC7Row1 : StoredCountry :=
  ⟨⟨"Nigeria", none, some "Africa", 5, some "NGN", none, some 3, none⟩, 42⟩

def wC7Row2 : StoredCountry :=
  ⟨⟨"France", none, some "Europe", 5, some "EUR", none, some 7, none⟩, 42⟩

/-- C7 witness: looking up and deleting `"nIgErIa"` on a store holding
`Nigeria` and `France`. -/
theorem lookup_delete_case_insensitive_witness :
    getCountry [wC7Row1, wC7Row2] "nIgErIa" = LookupResponse.found wC7Row1 ∧
    (getCountry [wC7Row1, wC7Row2] "nIgErIa").statusCode = 200 ∧
    deleteCountry [wC7Row1, wC7Row2] "nIgErIa" = (DeleteResponse.noContent,
      ([wC7Row1, wC7Row2] : List StoredCountry).filter
        (fun x => !(x.data.name == wC7Row1.data.name))) ∧
    DeleteResponse.noContent.statusCode = 204 ∧
    wC7Row1 ∉ (deleteCountry [wC7Row1, wC7Row2] "nIgErIa").2 :=
  lookup_delete_case_insensitive.1 [wC7Row1, wC7Row2] wC7Row1 "nIgErIa"
    (by decide) (by simp) (by decide)

/-! ## C8: filtering and sorting -/

lemma optLe_total (a b : Option ℚ) : optLe a b = true ∨ optLe b a = true := by
  cases a with
  | none => left; rfl
  | some x =>
    cases b with
    | none => right; rfl
    | some y =>
      rcases le_total x y with h | h
      · left; simp [optLe, h]
      · right; simp [optLe, h]

lemma optLe_trans (a b c : Option ℚ) (h1 : optLe a b = true)
    (h2 : optLe b c = true) : optLe a c = true := by
  cases a with
  | none => rfl
  | some x =>
    cases b with
    | none => simp [optLe] at h1
    | some y =>
      cases c with
      | none => simp [optLe] at h2
      | some z =>
        simp only [optLe, decide_eq_true_eq] at h1 h2 ⊢
        exact le_trans h1 h2

lemma charListLe_total :
    ∀ (as bs : List Char), charListLe as bs = true ∨ charListLe bs as = true := by
  intro as
  induction as with
  | nil => intro bs; left; rfl
  | cons a as2 ih =>
    intro bs
    cases bs with
    | nil => right; rfl
    | cons b bs2 =>
      rcases lt_trichotomy a b with h | h | h
      · left; simp [charListLe, h]
      · subst h
        rcases ih bs2 with h2 | h2
        · left; simp [charListLe, lt_irrefl, h2]
        · right; simp [charListLe, lt_irrefl, h2]
      · right; simp [charListLe, h]

lemma charListLe_trans :
    ∀ (as bs cs : List Char), charListLe as bs = true →
      charListLe bs cs = true → charListLe as cs = true := by
  intro as
  induction as with
  | nil => intro bs cs h1 h2; rfl
  | cons a as2 ih =>
    intro bs cs h1 h2
    cases bs with
    | nil => simp [charListLe] at h1
    | cons b bs2 =>
      cases cs with
      | nil => simp [charListLe] at h2
      | cons c cs2 =>
        by_cases hab : a < b
        · by_cases hbc : b < c
          · simp [charListLe, lt_trans hab hbc]
          · by_cases hcb : c < b
            · simp [charListLe, hbc, hcb] at h2
            · have hbceq : b = c := le_antisymm (not_lt.mp hcb) (not_lt.mp hbc)
              subst hbceq
              simp [charListLe, hab]
        · by_cases hba : b < a
          · simp [charListLe, hab, hba] at h1
          · have habeq : a = b := le_antisymm (not_lt.mp hba) (not_lt.mp hab)
            subst habeq
            simp only [charListLe, lt_irrefl, if_false] at h1
            by_cases hac : a < c
            · simp [charListLe, hac]
            · by_cases hca : c < a
              · simp [charListLe, hac, hca] at h2
              · have haceq : a = c := le_antisymm (not_lt.mp hca) (not_lt.mp hac)
                subst haceq
                simp only [charListLe, lt_irrefl, if_false] at h2
                simp only [charListLe, lt_irrefl, if_false]
                exact ih bs2 cs2 h1 h2

instance : IsTotal StoredCountry gdpAscRel :=
  ⟨fun _ _ => optLe_total _ _⟩

instance : IsTrans StoredCountry gdpAscRel :=
  ⟨fun _ _ _ h1 h2 => optLe_trans _ _ _ h1 h2⟩

instance : IsTotal StoredCountry gdpDescRel :=
  ⟨fun a b => optLe_total b.data.estimated_gdp a.data.estimated_gdp⟩

instance : IsTrans StoredCountry gdpDescRel :=
  ⟨fun _ _ _ h1 h2 => optLe_trans _ _ _ h2 h1⟩

instance : IsTotal StoredCountry nameAscRel :=
  ⟨fun a b => charListLe_total (lowerName a).data (lowerName b).data⟩

instance : IsTrans StoredCountry nameAscRel :=
  ⟨fun _ _ _ h1 h2 => charListLe_trans _ _ _ h1 h2⟩

/-- C8: `getCountries` returns exactly the rows matching the (optional) region
and currency filters — as a permutation of the filtered store — ordered by
`estimated_gdp` descending for `sort=gdp_desc`, ascending for `sort=gdp_asc`,
and by name ascending when no sort parameter is given. -/
theorem list_filters_and_sorts (q : ListQuery) (store : List StoredCountry) :
    (∀ r, r ∈ getCountries q store ↔ r ∈ store ∧ rowMatches q r = true) ∧
    List.Perm (getCountries q store) (store.filter (rowMatches q)) ∧
    (q.sort = some "gdp_desc" → List.Sorted gdpDescRel (getCountries q store)) ∧
    (q.sort = some "gdp_asc" → List.Sorted gdpAscRel (getCountries q store)) ∧
    (q.sort = none → List.Sorted nameAscRel (getCountries q store)) := by
  unfold getCountries
  by_cases h1 : q.sort = some "gdp_desc"
  · simp only [h1, if_true, reduceIte]
    refine ⟨?_, List.perm_insertionSort _ _, ?_, ?_, ?_⟩
    · intro r
      rw [List.mem_insertionSort, List.mem_filter]
    · intro _
      exact List.sorted_insertionSort _ _
    · intro h2
      simp at h2
    · intro h2
      simp at h2
  · rw [if_neg h1]
    by_cases h2 : q.sort = some "gdp_asc"
    · simp only [h2, if_true, reduceIte]
      refine ⟨?_, List.perm_insertionSort _ _, ?_, ?_, ?_⟩
      · intro r
        rw [List.mem_insertionSort, List.mem_filter]
      · intro h3
        simp at h3
      · intro _
        exact List.sorted_insertionSort _ _
      · intro h3
        simp at h3
    · rw [if_neg h2]
      refine ⟨?_, List.perm_insertionSort _ _, ?_, ?_, ?_⟩
      · intro r
        rw [List.mem_insertionSort, List.mem_filter]
      · intro h3
        exact absurd h3 h1
      · intro h3
        exact absurd h3 h2
      · intro _
        exact List.sorted_insertionSort _ _

/-- C8 witness data. -/
def wC8Query : ListQuery := ⟨some "Africa", none, some "gdp_desc"⟩

def wC8Store : List StoredCountry :=
  [⟨⟨"Nigeria", none, some "Africa", 5, some "NGN", none, some 3, none⟩, 42⟩,
   ⟨⟨"France", none, some "Europe", 5, some "EUR", none, some 7, none⟩, 42⟩,
   ⟨⟨"Ghana", none, some "Africa", 5, some "GHS", none, none, none⟩, 42⟩]

/-- C8 witness: filtering by `region=Africa` with `sort=gdp_desc` on a concrete
three-row store. -/
theorem list_filters_and_sorts_witness :
    (∀ r, r ∈ getCountries wC8Query wC8Store ↔
      r ∈ wC8Store ∧ rowMatches wC8Query r = true) ∧
    List.Perm (getCountries wC8Query wC8Store)
      (wC8Store.filter (rowMatches wC8Query)) ∧
    List.Sorted gdpDescRel (getCountries wC8Query wC8Store) :=
  ⟨(list_filters_and_sorts wC8Query wC8Store).1,
   (list_filters_and_sorts wC8Query wC8Store).2.1,
   (list_filters_and_sorts wC8Query wC8Store).2.2.1 rfl⟩

/-! ## C9: the status endpoint -/

/-- C9: on an empty store `/status` reports `{total_countries: 0,
last_refreshed_at: null}`; in general it reports the row count, reports a null
timestamp exactly when the store is empty, and any reported timestamp is the
maximum `last_refreshed_at` over the stored rows. -/
theorem status_counts_and_latest :
    getStatus [] = ⟨0, none⟩ ∧
    (∀ store : List StoredCountry,
      (getStatus store).total_countries = store.length) ∧
    (∀ store : List StoredCountry,
      (getStatus store).last_refreshed_at = none ↔ store = []) ∧
    (∀ (store : List StoredCountry) (t : ℕ),
      (getStatus store).last_refreshed_at = some t →
      (∃ row, row ∈ store ∧ row.last_refreshed_at = t) ∧
      (∀ row, row ∈ store → row.last_refreshed_at ≤ t)) := by
  refine ⟨rfl, fun store => rfl, ?_, ?_⟩
  · intro store
    simp [getStatus, mostRecentTimestamp, List.max?_eq_none_iff]
  · intro store t h
    simp only [getStatus, mostRecentTimestamp] at h
    constructor
    · have hmem := List.max?_mem (fun a b => max_choice a b) h
      rcases List.mem_map.mp hmem with ⟨row, hrow, hts⟩
      exact ⟨row, hrow, hts⟩
    · intro row hrow
      exact ((List.max?_le_iff (fun a b c => Nat.max_le) h).mp (le_refl t))
        row.last_refreshed_at (List.mem_map_of_mem _ hrow)

/-- C9 witness row. -/
def wC9Row : StoredCountry :=
  ⟨⟨"Nigeria", none, some "Africa", 5, some "NGN", none, some 3, none⟩, 42⟩

/-- C9 witness: the status properties instantiated on the empty store and a
one-row store. -/
theorem status_counts_and_latest_witness :
    getStatus [] = ⟨0, none⟩ ∧
    (getStatus [wC9Row]).total_countries = ([wC9Row] : List StoredCountry).length ∧
    ((getStatus [wC9Row]).last_refreshed_at = none ↔
      ([wC9Row] : List StoredCountry) = []) ∧
    ((∃ row, row ∈ ([wC9Row] : List StoredCountry) ∧
        row.last_refreshed_at = 42) ∧
      (∀ row, row ∈ ([wC9Row] : List StoredCountry) →
        row.last_refreshed_at ≤ 42)) :=
  ⟨status_counts_and_latest.1,
   status_counts_and_latest.2.1 [wC9Row],
   status_counts_and_latest.2.2.1 [wC9Row],
   status_counts_and_latest.2.2.2 [wC9Row] 42 (by decide)⟩

/-! ## C3: the image endpoint is shadowed by the `:name` route -/

/-- A filesystem holding a freshly rendered, non-empty summary image: the state
after a successful refresh whose renderer wrote to the primary path. -/
def c3Fs : FileSys := generateSummaryImage (fun _ => none) [80, 78, 71] true

/-- C3 (code bug): because `/countries/:name` is registered before
`/countries/image`, a GET of `/countries/image` is dispatched to the
single-country handler with `name = "image"`.  On a store with no country named
`image` — even right after a successful refresh, with the rendered image present
on disk — the service answers 404 `Country not found` instead of 200 with the
PNG bytes that `getImage` would have served. -/
theorem image_route_shadowed_bug :
    dispatch Method.get ["countries", "image"] = Handler.getByNameH "image" ∧
    handleGet ⟨none, none, none⟩ [] c3Fs ["countries", "image"] =
      GetResponse.errorJson 404 "Country not found" ∧
    getImage c3Fs = ImageResponse.fileContents [80, 78, 71] ∧
    ([80, 78, 71] : List ℕ) ≠ [] := by
  refine ⟨by decide, by decide, by decide, by decide⟩

end CountrySvc
